import Mathlib

/-!
Shallow embedding of the LFPsim repository (lkoelman/LFPsim).

The repository is a thin Python adapter around the NEURON simulation
engine.  Its observable behaviour consists of calls into the engine
(object allocations, pointer registrations, summator updates) and, for
the build script, filesystem lookups, a compiler invocation and printed
messages.  We model each Python function as a pure Lean function that
returns the list of engine/system calls it performs, in source order,
together with the state it builds.  External engine behaviour (the value
returned by calc_lfp_factors, the exit code of nrnivmodl, which paths
are files) is supplied as parameters of the model.

Files embedded:
  - src/lfpsim/lfp_tracker.py  (class LfpTracker)
  - src/lfpsim/__init__.py     (import-time side effects, wrappers)
  - src/setup.py               (class Build_NMODL)
-/

set_option autoImplicit false

namespace LFPsim

/-! ## Model of NEURON sections and segments

A NEURON Section has a discretisation parameter nseg; iterating
`for seg in sec` yields exactly nseg interior segments.  We model a
section by an identifier plus its nseg, and a segment by the pair
(section id, segment index within the section). -/

/-- A NEURON Section: identifier and number of segments. -/
structure Sec where
  id : Nat
  nseg : Nat
deriving DecidableEq, Repr

/-- A segment: (section id, index of the segment within the section). -/
abbrev Seg := Nat × Nat

/-- The segments produced by iterating a section (`for seg in sec`):
nseg segments, in order. -/
def secSegs (sec : Sec) : List Seg :=
  (List.range sec.nseg).map (fun k => (sec.id, k))

/-- The segments visited by the nested loops
`for sl in seclists: for sec in sl: for seg in sec:`, in visit order. -/
def allTrackedSegs (sls : List (List Sec)) : List Seg :=
  ((sls.map (fun sl => (sl.map secSegs).flatten)).flatten)

/-- `sum(sec.nseg for sl in self.tracked_seclists for sec in sl)`
from lfp_tracker.py line 76. -/
def num_tracked_segs_of (sls : List (List Sec)) : Nat :=
  ((sls.map (fun sl => (sl.map Sec.nseg).sum)).sum)

/-! ## Engine-call trace for LfpTracker -/

/-- A pointer into per-segment membrane-current state:
seg._ref_i_membrane_ (fast, CVode.fast_imem) or seg._ref_i_membrane
(from the extracellular mechanism). -/
inductive Ptr where
  | iMembraneFast (seg : Seg)
  | iMembrane (seg : Seg)
deriving DecidableEq, Repr

/-- One call from the Python adapter into the NEURON engine, in the
order the source performs them. -/
inductive EngineCall where
  /-- h.LfpSumStep(tracker_sec(loc)) : allocate the summation point process. -/
  | newLfpSumStep (secId : Nat) (loc : ℚ)
  /-- h.PtrVector(size). -/
  | newPtrVector (size : Nat)
  /-- h.calc_lfp_factors(use_fast_imem, lfp_scheme, sigma, electrode_coords, *args). -/
  | calcLfpFactors (use_fast_imem : Bool) (lfp_scheme : String) (sigma : ℚ)
      (electrode_coords : List ℚ)
  /-- Subscripting self.lfp_imemb_factors[i_seg]. -/
  | readFactor (idx : Nat)
  /-- h.setpointer(ptr, field, self.summator). -/
  | setpointer (p : Ptr) (field : String)
  /-- self.imemb_ptrs.pset(idx, ptr). -/
  | pset (idx : Nat) (p : Ptr)
  /-- self.summator.add_lfp_source(factor). -/
  | addLfpSource (factor : ℚ)
  /-- self.imemb_ptrs.ptr_update_callback(self.update_imemb_ptrs). -/
  | registerPtrUpdateCallback
  /-- self.summator.update_imemb_ptr(idx). -/
  | updateImembPtr (idx : Nat)
  /-- The print(...) inside update_imemb_ptrs (formats the seclist). -/
  | printUpdateMsg
deriving DecidableEq, Repr

/-- One iteration of the segment loop of LfpTracker.__init__
(lfp_tracker.py lines 86-98), faithful to the source indentation: the
pset / add_lfp_source / i_seg increment / ptr_update_callback
statements are inside the `else` (use_fast_imem == False) branch.
In the `if` branch the local `factor = self.lfp_imemb_factors[i_seg] * 1e2`
is computed (a read of the factor vector) but never passed to any call.
Returns (calls performed, new i_seg). -/
def initSegStep (use_fast_imem : Bool) (factors : Nat → ℚ) (seg : Seg) (i_seg : Nat) :
    List EngineCall × Nat :=
  if use_fast_imem then
    ([.setpointer (.iMembraneFast seg) "temp_ptr", .readFactor i_seg], i_seg)
  else
    ([.setpointer (.iMembrane seg) "temp_ptr", .readFactor i_seg,
      .pset i_seg (.iMembraneFast seg),
      .addLfpSource (factors i_seg),
      .registerPtrUpdateCallback], i_seg + 1)

/-- The segment loop of LfpTracker.__init__ over the flattened segment
visit order, threading i_seg. -/
def initSegLoop (use_fast_imem : Bool) (factors : Nat → ℚ) :
    List Seg → Nat → List EngineCall × Nat
  | [], i_seg => ([], i_seg)
  | seg :: rest, i_seg =>
      let s := initSegStep use_fast_imem factors seg i_seg
      let r := initSegLoop use_fast_imem factors rest s.2
      (s.1 ++ r.1, r.2)

/-- The h.LfpSumStep object: section it sits in and location. -/
structure LfpSumStepObj where
  sec : Nat
  loc : ℚ
deriving DecidableEq, Repr

/-- The h.PtrVector object (we track its size). -/
structure PtrVectorObj where
  size : Nat
deriving DecidableEq, Repr

/-- The attributes LfpTracker.__init__ stores on self. -/
structure LfpTracker where
  summator : LfpSumStepObj
  tracked_seclists : List (List Sec)
  use_fast_imem : Bool
  imemb_ptrs : PtrVectorObj
  lfp_imemb_factors : Nat → ℚ

/-- LfpTracker.__init__ (lfp_tracker.py lines 22-98).  `factors` is the
vector returned by the engine call h.calc_lfp_factors (external Hoc
code), indexed as the numpy view self.lfp_imemb_factors.  Returns the
constructed object and the trace of engine calls, in source order:
  self.summator = h.LfpSumStep(tracker_sec(0.5))
  self.imemb_ptrs = h.PtrVector(num_tracked_segs)
  self.lfp_imemb_factors = h.calc_lfp_factors(...).as_numpy()
  the nested loops over seclists / sections / segments. -/
def lfpTrackerInit (tracker_sec : Nat) (use_fast_imem : Bool) (lfp_scheme : String)
    (sigma : ℚ) (electrode_coords : List ℚ) (args : List (List Sec))
    (factors : Nat → ℚ) : LfpTracker × List EngineCall :=
  let n := num_tracked_segs_of args
  let loop := initSegLoop use_fast_imem factors (allTrackedSegs args) 0
  (⟨⟨tracker_sec, 1/2⟩, args, use_fast_imem, ⟨n⟩, factors⟩,
   [.newLfpSumStep tracker_sec (1/2), .newPtrVector n,
    .calcLfpFactors use_fast_imem lfp_scheme sigma electrode_coords] ++ loop.1)

/-- One iteration of the segment loop of LfpTracker.update_imemb_ptrs
(lfp_tracker.py lines 101-118), faithful to the source indentation: the
update_imemb_ptr / i_seg increment / print statements are inside the
`else` (use_fast_imem == False) branch. -/
def updateSegStep (use_fast_imem : Bool) (seg : Seg) (i_seg : Nat) :
    List EngineCall × Nat :=
  if use_fast_imem then
    ([.setpointer (.iMembraneFast seg) "temp_ptr"], i_seg)
  else
    ([.setpointer (.iMembrane seg) "temp_ptr",
      .updateImembPtr i_seg, .printUpdateMsg], i_seg + 1)

/-- The segment loop of LfpTracker.update_imemb_ptrs over the flattened
segment visit order, threading i_seg. -/
def updateSegLoop (use_fast_imem : Bool) :
    List Seg → Nat → List EngineCall × Nat
  | [], i_seg => ([], i_seg)
  | seg :: rest, i_seg =>
      let s := updateSegStep use_fast_imem seg i_seg
      let r := updateSegLoop use_fast_imem rest s.2
      (s.1 ++ r.1, r.2)

/-- Trace of LfpTracker.update_imemb_ptrs for given use_fast_imem and
tracked seclists (the method reads both from self). -/
def updateImembPtrsTrace (use_fast_imem : Bool) (sls : List (List Sec)) :
    List EngineCall :=
  (updateSegLoop use_fast_imem (allTrackedSegs sls) 0).1

/-- LfpTracker.update_imemb_ptrs as a method on the stored state. -/
def update_imemb_ptrs (t : LfpTracker) : List EngineCall :=
  updateImembPtrsTrace t.use_fast_imem t.tracked_seclists

/-! ### Trace observations -/

/-- The factors passed to summator.add_lfp_source, in call order. -/
def regFactors (t : List EngineCall) : List ℚ :=
  t.filterMap (fun c => match c with
    | .addLfpSource f => some f
    | _ => none)

/-- The segment a pointer refers to. -/
def ptrSeg : Ptr → Seg
  | .iMembraneFast s => s
  | .iMembrane s => s

/-- The (index, segment) pairs passed to imemb_ptrs.pset, in call order. -/
def psetPairs (t : List EngineCall) : List (Nat × Seg) :=
  t.filterMap (fun c => match c with
    | .pset i p => some (i, ptrSeg p)
    | _ => none)

/-- The segments whose membrane-current pointer is wired via
h.setpointer, in call order (the traversal order of the loops). -/
def segsTouched (t : List EngineCall) : List Seg :=
  t.filterMap (fun c => match c with
    | .setpointer p _ => some (ptrSeg p)
    | _ => none)

/-- The indices passed to summator.update_imemb_ptr, in call order. -/
def updateIdxs (t : List EngineCall) : List Nat :=
  t.filterMap (fun c => match c with
    | .updateImembPtr i => some i
    | _ => none)

/-- Indices used to subscript lfp_imemb_factors or passed to
imemb_ptrs.pset. -/
def factorIdxUsed (t : List EngineCall) : List Nat :=
  t.filterMap (fun c => match c with
    | .readFactor i => some i
    | .pset i _ => some i
    | _ => none)

/-- The (section, location) arguments of every h.LfpSumStep allocation
in the trace. -/
def sumStepAllocs (t : List EngineCall) : List (Nat × ℚ) :=
  t.filterMap (fun c => match c with
    | .newLfpSumStep s l => some (s, l)
    | _ => none)

/-! ## Module-level wrappers of src/lfpsim/__init__.py

The wrappers forward to engine functions exposed on neuron.h.  We model
neuron.h as a record of the two functions the module calls, generic in
the argument and result types, so equality of results expresses exact
delegation. -/

/-- The part of neuron.h the wrappers use. -/
structure NeuronHoc (Sectn Args R : Type) where
  insert_lfp_summator : Sectn → R
  add_lfp_sources : Args → R

/-- lfpsim.insert_lfp_summator (__init__.py lines 50-59):
`return neuron.h.insert_lfp_summator(section)`. -/
def insert_lfp_summator {Sectn Args R : Type} (neuron_h : NeuronHoc Sectn Args R)
    (s : Sectn) : R :=
  neuron_h.insert_lfp_summator s

/-- lfpsim.add_lfp_sources (__init__.py lines 62-101):
`return neuron.h.add_lfp_sources(*args)`. -/
def add_lfp_sources {Sectn Args R : Type} (neuron_h : NeuronHoc Sectn Args R)
    (args : Args) : R :=
  neuron_h.add_lfp_sources args

/-- Taken from the spec's words, for the refinement claim: the wrapper
should return exactly the value of the engine call, with no argument
transformation. -/
def insert_lfp_summator_specSide {Sectn Args R : Type}
    (neuron_h : NeuronHoc Sectn Args R) (s : Sectn) : R :=
  neuron_h.insert_lfp_summator s

/-- Taken from the spec's words, for the refinement claim. -/
def add_lfp_sources_specSide {Sectn Args R : Type}
    (neuron_h : NeuronHoc Sectn Args R) (args : Args) : R :=
  neuron_h.add_lfp_sources args

/-! ## Import-time side effects of src/lfpsim/__init__.py -/

/-- Python str.split with a one-character separator, on character
lists; the accumulator holds the current field reversed.  Note that
splitting the empty string yields [""]. -/
def pySplitChars (sep : Char) : List Char → List Char → List (List Char)
  | [], acc => [acc.reverse]
  | c :: rest, acc =>
      if c = sep then acc.reverse :: pySplitChars sep rest []
      else pySplitChars sep rest (c :: acc)

/-- Python str.split with a one-character separator. -/
def pySplit (sep : Char) (s : String) : List String :=
  (pySplitChars sep s.data []).map (fun cs => String.mk cs)

/-- Python s.startswith(p), computed on character lists so that it
reduces inside the kernel. -/
def strStartsWith (s p : String) : Bool := p.data.isPrefixOf s.data

/-- Python s.endswith(p), computed on character lists. -/
def strEndsWith (s p : String) : Bool := p.data.isSuffixOf s.data

/-- Python '/'.join(parts). -/
def joinSlash : List String → String
  | [] => ""
  | [x] => x
  | x :: xs => x ++ "/" ++ joinSlash xs

/-- POSIX os.path.join restricted to two components, as CPython's
posixpath.join defines it. -/
def posixJoin (a b : String) : String :=
  if strStartsWith b "/" then b
  else if a = "" || strEndsWith a "/" then a ++ b
  else a ++ "/" ++ b

/-- Events observable from outside the lfpsim module: its import-time
effects and subsequent calls of its wrapper functions. -/
inductive ModuleEvent where
  /-- neuron.load_mechanisms(here). -/
  | loadMechanisms (dir : String)
  /-- neuron.h.load_file(path). -/
  | loadFile (path : String)
  /-- print(msg). -/
  | printMsg (msg : String)
  /-- A call of one of the module's wrapper functions. -/
  | wrapperCall (name : String)
deriving DecidableEq, Repr

/-- Side effects executed by the body of src/lfpsim/__init__.py when it
is imported (lines 39-46), in source order; `here` is the package's own
directory (os.path.abspath(os.path.dirname(__file__))). -/
def lfpsimImportEffects (here : String) : List ModuleEvent :=
  [.loadMechanisms here,
   .loadFile (posixJoin here "lfp_lib.hoc"),
   .printMsg "\n[LFPsim] Functions in <lfp_lib.hoc> loaded into Hoc"]

/-- A session using the package: Python runs the module body once when
the package is imported, before any attribute (wrapper function) of the
package can be called; calls come after. -/
def lfpsimSession (here : String) (calls : List String) : List ModuleEvent :=
  lfpsimImportEffects here ++ calls.map ModuleEvent.wrapperCall

/-! ## src/setup.py : class Build_NMODL

Path resolution follows CPython's posixpath (normpath, abspath); the
filesystem, environment, and the external command runner are parameters. -/

/-- CPython posixpath.normpath. -/
def normpath (p : String) : String :=
  if p = "" then "." else
  let initialSlashes : Nat :=
    if strStartsWith p "/" then
      if strStartsWith p "//" && !(strStartsWith p "///") then 2 else 1
    else 0
  let comps := pySplit '/' p
  let newComps := comps.foldl (fun acc comp =>
    if comp = "" || comp = "." then acc
    else if comp ≠ ".." || (initialSlashes = 0 && acc = []) ||
            (acc ≠ [] && acc.getLast? = some "..") then
      acc ++ [comp]
    else if acc ≠ [] then acc.dropLast
    else acc) []
  let res := String.mk (List.replicate initialSlashes '/') ++ joinSlash newComps
  if res = "" then "." else res

/-- CPython posixpath.isabs. -/
def isabs (p : String) : Bool := strStartsWith p "/"

/-- CPython posixpath.abspath, with the current working directory
explicit. -/
def abspath (cwd p : String) : String :=
  if isabs p then normpath p else normpath (posixJoin cwd p)

/-- The environment the build script interacts with: the PATH variable
(None when unset), the filesystem's os.path.isfile, the working
directory, and the behaviour of the external command invoked through
subprocess.Popen (exit code and stdout lines, given command path and
working directory). -/
structure SysEnv where
  pathVar : Option String
  isfile : String → Bool
  cwd : String
  runCommand : String → String → Int × List String

/-- os.environ.get("PATH", "").split(os.pathsep): note that splitting
the empty string yields the single entry "". -/
def pathEntries (env : SysEnv) : List String :=
  pySplit ':' (env.pathVar.getD "")

/-- The absolute name Build_NMODL._find_executable forms for one PATH
entry: os.path.abspath(os.path.normpath(os.path.join(dir_name, command))). -/
def resolveEntry (env : SysEnv) (command dir_name : String) : String :=
  abspath env.cwd (normpath (posixJoin dir_name command))

/-- The loop of _find_executable: cmd starts as '', is set to the first
abs_name that is a file, and the loop breaks. -/
def findExecLoop (env : SysEnv) (command : String) : List String → String
  | [] => ""
  | dir_name :: rest =>
      let abs_name := resolveEntry env command dir_name
      if env.isfile abs_name then abs_name else findExecLoop env command rest

/-- Build_NMODL._find_executable (setup.py lines 86-97). -/
def find_executable (env : SysEnv) (command : String) : String :=
  findExecLoop env command (pathEntries env)

/-- The module constant nmodl_mechanism_dirs = ['.'] (setup.py lines 45-47). -/
def nmodl_mechanism_dirs : List String := ["."]

/-- Observable events of Build_NMODL.run: the superclass build step, the
printed messages and each compiler invocation. -/
inductive BuildEvent where
  /-- BuildCommand.run(self) : the inherited build step. -/
  | superBuildRun
  /-- print("nrnivmodl found at", path). -/
  | printFoundAt (p : String)
  /-- subprocess invocation of the compiler: (path, working directory). -/
  | invoke (p : String) (wd : String)
  /-- print("Unable to compile NMODL files in <dir>. Output was: <output>"). -/
  | printCompileFailed (dir : String) (output : List String)
  /-- print("Successfully compiled NMODL files in <dir>."). -/
  | printCompileOk (dir : String)
  /-- print("Unable to find nrnivmodl. You will have to compile NEURON
  .mod files manually."). -/
  | printNotFound
deriving DecidableEq, Repr

/-- The body of the `for mech_dir in nmodl_mechanism_dirs` loop of
Build_NMODL.run, for one directory. -/
def buildDirStep (env : SysEnv) (basedir nrnivmodl mech_dir : String) :
    List BuildEvent :=
  let wd := posixJoin basedir mech_dir
  let r := env.runCommand nrnivmodl wd
  [.invoke nrnivmodl wd] ++
  (if r.1 ≠ 0 then [.printCompileFailed mech_dir r.2]
   else [.printCompileOk mech_dir])

/-- Build_NMODL.run (setup.py lines 57-83); `basedir` is the module
constant BASEDIR.  `if nrnivmodl:` is Python string truthiness, i.e.
nonemptiness. -/
def buildNmodlRun (env : SysEnv) (basedir : String) : List BuildEvent :=
  let nrnivmodl := find_executable env "nrnivmodl"
  [.superBuildRun] ++
  (if nrnivmodl ≠ "" then
    [.printFoundAt nrnivmodl] ++
    (nmodl_mechanism_dirs.map (buildDirStep env basedir nrnivmodl)).flatten
  else
    [.printNotFound])

/-- The mechanism-directory loop of Build_NMODL.run in the Except
monad (an uncaught Python exception would surface as .error). -/
def buildDirsLoopE (env : SysEnv) (basedir nrnivmodl : String) :
    List String → Except String (List BuildEvent)
  | [] => .ok []
  | mech_dir :: rest => do
      let head := buildDirStep env basedir nrnivmodl mech_dir
      let tail ← buildDirsLoopE env basedir nrnivmodl rest
      return head ++ tail

/-- Build_NMODL.run translated into the Except monad, where an uncaught
Python exception would surface as .error: the body contains no raise
statement, no try/except and no fallible operation of its own, so the
translation produces .ok on every environment. -/
def buildNmodlRunE (env : SysEnv) (basedir : String) :
    Except String (List BuildEvent) := do
  let nrnivmodl := find_executable env "nrnivmodl"
  if nrnivmodl ≠ "" then
    let rest ← buildDirsLoopE env basedir nrnivmodl nmodl_mechanism_dirs
    return [.superBuildRun, .printFoundAt nrnivmodl] ++ rest
  else
    return [.superBuildRun, .printNotFound]

/-- The compiler invocations recorded in a build trace, in order. -/
def invocations (t : List BuildEvent) : List (String × String) :=
  t.filterMap (fun e => match e with
    | .invoke p wd => some (p, wd)
    | _ => none)

/-- Example environment: nrnivmodl present on the PATH, compiler
succeeds. -/
def exEnvFound : SysEnv :=
  ⟨some "/usr/bin", (fun s => s == "/usr/bin/nrnivmodl"), "/work",
   fun _ _ => (0, [])⟩

/-- Example environment: PATH unset, but the current working directory
contains a file named nrnivmodl. -/
def exEnvUnsetPath : SysEnv :=
  ⟨none, (fun s => s == "/work/nrnivmodl"), "/work", fun _ _ => (0, [])⟩

/-- Example environment: PATH set but no nrnivmodl anywhere. -/
def exEnvNoFile : SysEnv :=
  ⟨some "/empty", (fun _ => false), "/work", fun _ _ => (0, [])⟩

/-! ## Helper lemmas about the loops -/

theorem sumStepAllocs_initSegLoop (uf : Bool) (f : Nat → ℚ) (segs : List Seg)
    (i : Nat) : sumStepAllocs (initSegLoop uf f segs i).1 = [] := by
  induction segs generalizing i with
  | nil => rfl
  | cons s rest ih =>
      cases uf <;>
        simp [initSegLoop, initSegStep, sumStepAllocs, List.filterMap_append] <;>
        simpa [sumStepAllocs] using ih _

theorem regFactors_initSegLoop_true (f : Nat → ℚ) (segs : List Seg) (i : Nat) :
    regFactors (initSegLoop true f segs i).1 = [] := by
  induction segs generalizing i with
  | nil => rfl
  | cons s rest ih =>
      simp [initSegLoop, initSegStep, regFactors, List.filterMap_append]
      simpa [regFactors] using ih _

theorem regFactors_initSegLoop_false (f : Nat → ℚ) (segs : List Seg) (i : Nat) :
    regFactors (initSegLoop false f segs i).1 =
      (List.range segs.length).map (fun k => f (i + k)) := by
  induction segs generalizing i with
  | nil => rfl
  | cons s rest ih =>
      have h1 : regFactors (initSegLoop false f (s :: rest) i).1 =
          f i :: regFactors (initSegLoop false f rest (i + 1)).1 := by
        simp [initSegLoop, initSegStep, regFactors, List.filterMap_append]
      rw [h1, ih, List.length_cons, List.range_succ_eq_map, List.map_cons,
        List.map_map]
      congr 1
      apply List.map_congr_left
      intro k _
      simp only [Function.comp_apply]
      congr 1
      omega

theorem segsTouched_initSegLoop (uf : Bool) (f : Nat → ℚ) (segs : List Seg)
    (i : Nat) : segsTouched (initSegLoop uf f segs i).1 = segs := by
  induction segs generalizing i with
  | nil => rfl
  | cons s rest ih =>
      cases uf <;>
        simp [initSegLoop, initSegStep, segsTouched, List.filterMap_append,
          ptrSeg] <;>
        simpa [segsTouched] using ih _

theorem segsTouched_updateSegLoop (uf : Bool) (segs : List Seg) (i : Nat) :
    segsTouched (updateSegLoop uf segs i).1 = segs := by
  induction segs generalizing i with
  | nil => rfl
  | cons s rest ih =>
      cases uf <;>
        simp [updateSegLoop, updateSegStep, segsTouched, List.filterMap_append,
          ptrSeg] <;>
        simpa [segsTouched] using ih _

theorem psetPairs_initSegLoop_false (f : Nat → ℚ) (segs : List Seg) (i : Nat) :
    psetPairs (initSegLoop false f segs i).1 = List.enumFrom i segs := by
  induction segs generalizing i with
  | nil => rfl
  | cons s rest ih =>
      simp only [initSegLoop, initSegStep, Bool.false_eq_true, if_false,
        psetPairs, List.filterMap_append]
      rw [show List.enumFrom i (s :: rest) = (i, s) :: List.enumFrom (i + 1) rest
        from rfl]
      simpa [psetPairs, ptrSeg] using ih (i + 1)

theorem updateIdxs_updateSegLoop_false (segs : List Seg) (i : Nat) :
    updateIdxs (updateSegLoop false segs i).1 = List.range' i segs.length := by
  induction segs generalizing i with
  | nil => rfl
  | cons s rest ih =>
      simp only [updateSegLoop, updateSegStep, Bool.false_eq_true, if_false,
        updateIdxs, List.filterMap_append, List.length_cons, List.range'_succ]
      simpa [updateIdxs] using ih (i + 1)

theorem factorIdxUsed_initSegLoop_false (f : Nat → ℚ) (segs : List Seg)
    (i n : Nat) (h : n ∈ factorIdxUsed (initSegLoop false f segs i).1) :
    n < i + segs.length := by
  induction segs generalizing i with
  | nil => simp [initSegLoop, factorIdxUsed] at h
  | cons s rest ih =>
      simp only [initSegLoop, initSegStep, Bool.false_eq_true, if_false,
        factorIdxUsed, List.filterMap_append, List.mem_append] at h
      rcases h with h | h
      · have hn : n = i := by
          simpa [factorIdxUsed] using h
        subst hn
        simp only [List.length_cons]
        omega
      · have hlt := ih (i + 1) (by simpa [factorIdxUsed] using h)
        simp only [List.length_cons]
        omega

theorem length_allTrackedSegs (sls : List (List Sec)) :
    (allTrackedSegs sls).length = num_tracked_segs_of sls := by
  simp only [allTrackedSegs, num_tracked_segs_of, List.length_flatten,
    List.map_map]
  congr 1
  apply List.map_congr_left
  intro sl _
  simp only [Function.comp_apply, List.length_flatten, List.map_map]
  congr 1
  apply List.map_congr_left
  intro sec _
  simp [secSegs]

theorem buildDirsLoopE_ok (env : SysEnv) (basedir nrnivmodl : String)
    (dirs : List String) :
    buildDirsLoopE env basedir nrnivmodl dirs =
      Except.ok ((dirs.map (buildDirStep env basedir nrnivmodl)).flatten) := by
  induction dirs with
  | nil => rfl
  | cons d rest ih =>
      simp [buildDirsLoopE, ih, Except.bind]

theorem findExecLoop_characterization (env : SysEnv) (cmd : String)
    (l : List String) :
    (findExecLoop env cmd l = "" ∧
      ∀ d ∈ l, env.isfile (resolveEntry env cmd d) = false) ∨
    (∃ pre d post, l = pre ++ d :: post ∧
      findExecLoop env cmd l = resolveEntry env cmd d ∧
      env.isfile (resolveEntry env cmd d) = true ∧
      ∀ d2 ∈ pre, env.isfile (resolveEntry env cmd d2) = false) := by
  induction l with
  | nil => exact Or.inl ⟨rfl, by simp⟩
  | cons d rest ih =>
      by_cases h : env.isfile (resolveEntry env cmd d) = true
      · refine Or.inr ⟨[], d, rest, rfl, ?_, h, by simp⟩
        simp [findExecLoop, h]
      · have hf : env.isfile (resolveEntry env cmd d) = false := by
          simpa using h
        have hstep : findExecLoop env cmd (d :: rest) = findExecLoop env cmd rest := by
          simp [findExecLoop, hf]
        rcases ih with ⟨he, hall⟩ | ⟨pre, d1, post, hsplit, hval, hfile, hpre⟩
        · refine Or.inl ⟨by rw [hstep, he], ?_⟩
          intro d2 hd2
          rcases List.mem_cons.mp hd2 with rfl | hd2
          · exact hf
          · exact hall d2 hd2
        · refine Or.inr ⟨d :: pre, d1, post, by rw [hsplit]; rfl,
            by rw [hstep, hval], hfile, ?_⟩
          intro d2 hd2
          rcases List.mem_cons.mp hd2 with rfl | hd2
          · exact hf
          · exact hpre d2 hd2

/-! ## Claim theorems -/

/-- Claim C1 (code bug, evaluation at the failing input): constructing
LfpTracker with use_fast_imem = True over a single SectionList holding
one single-segment section registers no LFP source at all with the
summation object, although one segment is tracked — the
pset / add_lfp_source / i_seg statements sit inside the
use_fast_imem == False branch. -/
theorem claim_c1_code_bug_eval :
    regFactors (lfpTrackerInit 0 true "PSA" 1 [0, 0, 0] [[⟨0, 1⟩]]
      (fun _ => 1)).2 = [] ∧
    num_tracked_segs_of [[⟨0, 1⟩]] = 1 := by
  constructor
  · rfl
  · rfl

/-- Claim C2: the module-level wrappers delegate without adding
behaviour — for every engine and every argument, the wrapper's result
is exactly the engine call's result, and the wrappers agree with the
definitions taken from the spec's words. -/
theorem claim_c2_delegation :
    ∀ (Sectn Args R : Type) (neuron_h : NeuronHoc Sectn Args R)
      (s : Sectn) (args : Args),
      insert_lfp_summator neuron_h s = neuron_h.insert_lfp_summator s ∧
      add_lfp_sources neuron_h args = neuron_h.add_lfp_sources args ∧
      insert_lfp_summator neuron_h s = insert_lfp_summator_specSide neuron_h s ∧
      add_lfp_sources neuron_h args = add_lfp_sources_specSide neuron_h args := by
  intros
  exact ⟨rfl, rfl, rfl, rfl⟩

/-- Claim C3: whenever nrnivmodl is found, Build_NMODL.run invokes it
exactly once per configured mechanism directory (in that directory,
in order), and for each directory the failure message carrying the
compiler's output is printed iff the exit code is nonzero while the
success message is printed iff the exit code is zero. -/
theorem claim_c3_compile_messages (env : SysEnv) (basedir : String)
    (h : find_executable env "nrnivmodl" ≠ "") :
    invocations (buildNmodlRun env basedir) =
      nmodl_mechanism_dirs.map
        (fun d => (find_executable env "nrnivmodl", posixJoin basedir d)) ∧
    ∀ d ∈ nmodl_mechanism_dirs,
      ((BuildEvent.printCompileFailed d
          (env.runCommand (find_executable env "nrnivmodl")
            (posixJoin basedir d)).2 ∈ buildNmodlRun env basedir) ↔
        (env.runCommand (find_executable env "nrnivmodl")
          (posixJoin basedir d)).1 ≠ 0) ∧
      ((BuildEvent.printCompileOk d ∈ buildNmodlRun env basedir) ↔
        (env.runCommand (find_executable env "nrnivmodl")
          (posixJoin basedir d)).1 = 0) := by
  by_cases hz : (env.runCommand (find_executable env "nrnivmodl")
      (posixJoin basedir ".")).1 = 0 <;>
    simp [buildNmodlRun, nmodl_mechanism_dirs, buildDirStep, invocations, h,
      hz]

/-- Claim C3, witness: in an environment where nrnivmodl is at
/usr/bin/nrnivmodl and the compiler exits with code 0, the success
message for directory "." is printed. -/
theorem claim_c3_witness :
    BuildEvent.printCompileOk "." ∈ buildNmodlRun exEnvFound "/base" :=
  ((claim_c3_compile_messages exEnvFound "/base" (by decide)).2 "."
    (by simp [nmodl_mechanism_dirs])).2.mpr (by decide)

/-- Claim C4, counterexample: with PATH unset and a file named
nrnivmodl in the current working directory /work, _find_executable
returns "/work/nrnivmodl" — not the empty string the claim asserts for
an unset or empty PATH (the empty PATH entry is resolved against the
working directory). -/
theorem claim_c4_counterexample :
    find_executable exEnvUnsetPath "nrnivmodl" = "/work/nrnivmodl" ∧
    ¬ (find_executable exEnvUnsetPath "nrnivmodl" = "") := by
  constructor
  · decide
  · decide

/-- Claim C4 (amended): _find_executable scans the PATH entries in
order (an unset or empty PATH yields the single empty entry, which is
resolved against the current working directory) and returns the
resolved absolute file name of the first entry containing a file of the
given name; if no entry does, it returns the empty string, in which
case run prints the not-found message and invokes no compiler. -/
theorem claim_c4_find_executable (env : SysEnv) (cmd basedir : String) :
    ((find_executable env cmd = "" ∧
        ∀ d ∈ pathEntries env, env.isfile (resolveEntry env cmd d) = false) ∨
      (∃ pre d post, pathEntries env = pre ++ d :: post ∧
        find_executable env cmd = resolveEntry env cmd d ∧
        env.isfile (resolveEntry env cmd d) = true ∧
        ∀ d2 ∈ pre, env.isfile (resolveEntry env cmd d2) = false)) ∧
    (find_executable env "nrnivmodl" ≠ "" ∨
      buildNmodlRun env basedir =
        [BuildEvent.superBuildRun, BuildEvent.printNotFound]) := by
  constructor
  · exact findExecLoop_characterization env cmd (pathEntries env)
  · by_cases h : find_executable env "nrnivmodl" = ""
    · exact Or.inr (by simp [buildNmodlRun, h])
    · exact Or.inl h

/-- Claim C4, witness: in an environment whose PATH entry holds no
nrnivmodl file, run prints only the superclass step and the not-found
message, invoking no compiler. -/
theorem claim_c4_witness :
    buildNmodlRun exEnvNoFile "/base" =
      [BuildEvent.superBuildRun, BuildEvent.printNotFound] := by
  rcases (claim_c4_find_executable exEnvNoFile "nrnivmodl" "/base").2 with h | h
  · exact absurd (by decide) h
  · exact h

/-- Claim C5: in any session, any call of a wrapper function of the
lfpsim package is preceded by the import-time effects
neuron.load_mechanisms(package dir) and
neuron.h.load_file(package dir/lfp_lib.hoc). -/
theorem claim_c5_import_effects (here : String) (calls : List String)
    (n : Nat) (c : String)
    (h : (lfpsimSession here calls).get? n = some (ModuleEvent.wrapperCall c)) :
    (∃ i, i < n ∧ (lfpsimSession here calls).get? i =
        some (ModuleEvent.loadMechanisms here)) ∧
    (∃ j, j < n ∧ (lfpsimSession here calls).get? j =
        some (ModuleEvent.loadFile (posixJoin here "lfp_lib.hoc"))) := by
  match n with
  | 0 => simp [lfpsimSession, lfpsimImportEffects] at h
  | 1 => simp [lfpsimSession, lfpsimImportEffects] at h
  | 2 => simp [lfpsimSession, lfpsimImportEffects] at h
  | (m + 3) =>
      exact ⟨⟨0, by omega, rfl⟩, ⟨1, by omega, rfl⟩⟩

/-- Claim C5, witness: with package directory /pkg and one wrapper call
at position 3, both load effects occur at earlier positions. -/
theorem claim_c5_witness :
    (∃ i, i < 3 ∧ (lfpsimSession "/pkg" ["f"]).get? i =
        some (ModuleEvent.loadMechanisms "/pkg")) ∧
    (∃ j, j < 3 ∧ (lfpsimSession "/pkg" ["f"]).get? j =
        some (ModuleEvent.loadFile (posixJoin "/pkg" "lfp_lib.hoc"))) :=
  claim_c5_import_effects "/pkg" ["f"] 3 "f" rfl

/-- Claim C6: every LfpTracker construction stores as its summator
attribute an LfpSumStep placed at location 0.5 of the supplied tracker
section, and the construction trace contains exactly one LfpSumStep
allocation, with those arguments. -/
theorem claim_c6_summator (tracker_sec : Nat) (use_fast_imem : Bool)
    (lfp_scheme : String) (sigma : ℚ) (coords : List ℚ)
    (args : List (List Sec)) (factors : Nat → ℚ) :
    (lfpTrackerInit tracker_sec use_fast_imem lfp_scheme sigma coords args
        factors).1.summator = ⟨tracker_sec, 1/2⟩ ∧
    sumStepAllocs (lfpTrackerInit tracker_sec use_fast_imem lfp_scheme sigma
        coords args factors).2 = [(tracker_sec, 1/2)] := by
  refine ⟨rfl, ?_⟩
  have hl := sumStepAllocs_initSegLoop use_fast_imem factors (allTrackedSegs args) 0
  simp only [sumStepAllocs] at hl ⊢
  simp [lfpTrackerInit, List.filterMap_append, hl]

/-- Claim C7: the factors registered via add_lfp_source are, in call
order, exactly the elements of the engine-returned factor vector at
indices 0, 1, 2, ...; no numerical transformation is applied to any
registered factor. -/
theorem claim_c7_factors_untransformed (tracker_sec : Nat)
    (use_fast_imem : Bool) (lfp_scheme : String) (sigma : ℚ)
    (coords : List ℚ) (args : List (List Sec)) (factors : Nat → ℚ) :
    regFactors (lfpTrackerInit tracker_sec use_fast_imem lfp_scheme sigma
        coords args factors).2 =
      (List.range (regFactors (lfpTrackerInit tracker_sec use_fast_imem
        lfp_scheme sigma coords args factors).2).length).map factors := by
  have hhd : regFactors (lfpTrackerInit tracker_sec use_fast_imem lfp_scheme
      sigma coords args factors).2 =
      regFactors (initSegLoop use_fast_imem factors (allTrackedSegs args) 0).1 := by
    simp [lfpTrackerInit, regFactors, List.filterMap_append]
  rw [hhd]
  cases use_fast_imem
  · rw [regFactors_initSegLoop_false factors (allTrackedSegs args) 0]
    simp
  · rw [regFactors_initSegLoop_true factors (allTrackedSegs args) 0]
    simp

/-- Claim C8: with use_fast_imem false, every index passed to
imemb_ptrs.pset or used to subscript lfp_imemb_factors during
construction is strictly below num_tracked_segs, the size given to the
PtrVector. -/
theorem claim_c8_index_bounds (tracker_sec : Nat) (lfp_scheme : String)
    (sigma : ℚ) (coords : List ℚ) (args : List (List Sec))
    (factors : Nat → ℚ) (n : Nat)
    (h : n ∈ factorIdxUsed (lfpTrackerInit tracker_sec false lfp_scheme sigma
      coords args factors).2) :
    n < num_tracked_segs_of args := by
  have hhd : factorIdxUsed (lfpTrackerInit tracker_sec false lfp_scheme sigma
      coords args factors).2 =
      factorIdxUsed (initSegLoop false factors (allTrackedSegs args) 0).1 := by
    simp [lfpTrackerInit, factorIdxUsed, List.filterMap_append]
  rw [hhd] at h
  have := factorIdxUsed_initSegLoop_false factors (allTrackedSegs args) 0 n h
  rw [length_allTrackedSegs] at this
  omega

/-- Claim C8, witness: for one SectionList holding one two-segment
section, the index 1 is used and is below num_tracked_segs = 2. -/
theorem claim_c8_witness :
    1 ∈ factorIdxUsed (lfpTrackerInit 0 false "PSA" 1 [] [[⟨0, 2⟩]]
        (fun _ => 1)).2 ∧
    1 < num_tracked_segs_of [[⟨0, 2⟩]] :=
  ⟨by decide, claim_c8_index_bounds 0 "PSA" 1 [] [[⟨0, 2⟩]] (fun _ => 1) 1
    (by decide)⟩

/-- Claim C9: __init__ and update_imemb_ptrs wire pointers for the same
segments in the same order (for either use_fast_imem value), and for
use_fast_imem false the (index, segment) pairs registered through pset
at construction and the indices passed to update_imemb_ptr both
enumerate that common traversal, so index i denotes the same segment in
both. -/
theorem claim_c9_same_traversal (tracker_sec : Nat) (lfp_scheme : String)
    (sigma : ℚ) (coords : List ℚ) (sls : List (List Sec))
    (factors : Nat → ℚ) (uf : Bool) :
    segsTouched (lfpTrackerInit tracker_sec uf lfp_scheme sigma coords sls
        factors).2 = segsTouched (updateImembPtrsTrace uf sls) ∧
    psetPairs (lfpTrackerInit tracker_sec false lfp_scheme sigma coords sls
        factors).2 = (segsTouched (updateImembPtrsTrace false sls)).enum ∧
    (updateIdxs (updateImembPtrsTrace false sls)).zip
        (segsTouched (updateImembPtrsTrace false sls)) =
      (segsTouched (updateImembPtrsTrace false sls)).enum := by
  have hinit : segsTouched (lfpTrackerInit tracker_sec uf lfp_scheme sigma
      coords sls factors).2 =
      segsTouched (initSegLoop uf factors (allTrackedSegs sls) 0).1 := by
    simp [lfpTrackerInit, segsTouched, List.filterMap_append]
  have hpset : psetPairs (lfpTrackerInit tracker_sec false lfp_scheme sigma
      coords sls factors).2 =
      psetPairs (initSegLoop false factors (allTrackedSegs sls) 0).1 := by
    simp [lfpTrackerInit, psetPairs, List.filterMap_append]
  refine ⟨?_, ?_, ?_⟩
  · rw [hinit, segsTouched_initSegLoop, updateImembPtrsTrace,
      segsTouched_updateSegLoop]
  · rw [hpset, psetPairs_initSegLoop_false, updateImembPtrsTrace,
      segsTouched_updateSegLoop]
    rfl
  · rw [updateImembPtrsTrace, segsTouched_updateSegLoop,
      updateIdxs_updateSegLoop_false, List.enum_eq_zip_range,
      List.range_eq_range']

/-- Claim C10: Build_NMODL.run returns normally in every environment —
its Except-monad translation produces .ok whether or not nrnivmodl is
found and whatever the compiler's exit code — and the run reports the
outcome only through printed messages (the not-found message or the
found-at message is always among the events). -/
theorem claim_c10_total (env : SysEnv) (basedir : String) :
    buildNmodlRunE env basedir = Except.ok (buildNmodlRun env basedir) ∧
    (BuildEvent.printNotFound ∈ buildNmodlRun env basedir ∨
      BuildEvent.printFoundAt (find_executable env "nrnivmodl") ∈
        buildNmodlRun env basedir) := by
  by_cases h : find_executable env "nrnivmodl" = ""
  · refine ⟨?_, Or.inl ?_⟩
    · simp [buildNmodlRunE, buildNmodlRun, h, pure, Except.pure]
    · simp [buildNmodlRun, h]
  · refine ⟨?_, Or.inr ?_⟩
    · simp only [buildNmodlRunE, buildNmodlRun, h, buildDirsLoopE_ok, ne_eq,
        not_false_eq_true, if_true]
      rfl
    · simp [buildNmodlRun, h]

end LFPsim
